import Mathlib

/-!
Verification of the Mohawk metrics server design against its sources.

The embedding covers: the HTTP fallback handler `BadRequest`
(middleware, `src/unnamed/part_002`), the route tables registered by
`Serve` and the `GetStatus` handler (`src/server/server.go`), the
startup storage selection and option parsing of `Serve`, the decorator
pipeline assembled by `Serve`, and — modelled from the spec where the
package body is not among the sources — the router matching algorithm,
the authentication decorator, the in-memory storage write/query path
and the alert evaluation engine.

Requests and responses are modelled structurally: a request is a
method, a path and an optional bearer token; a response is a status
code and a body string.  Headers, TLS and the concrete wire I/O are
out of scope, as are the business-logic handler bodies, which are
represented by an abstract interpretation `HandlerId → Request →
Response` supplied by each theorem.
-/

namespace Mohawk

/-- An HTTP request as the verified layers observe it: method, URL
path, and the bearer token presented for authentication (none when the
request carries no token). -/
structure Request where
  method : String
  path : String
  authToken : Option String
  deriving DecidableEq, Repr

/-- An HTTP response: status code and body. -/
structure Response where
  status : Nat
  body : String
  deriving DecidableEq, Repr

/-- A request handler. -/
def Hdlr : Type := Request → Response

/-! ## BadRequest fallback middleware (src/unnamed/part_002) -/

/-- The fixed capability-advertisement JSON written for `OPTIONS`
requests by `BadRequest.ServeHTTP`. -/
def capabilityBody : String := "\x7b\"GET\":\x7b\x7d,\"PUT\":\x7b\x7d,\"POST\":\x7b\x7d\x7d"

/-- The body written for every non-`OPTIONS` unmatched request. -/
def notFoundBody : String := "Page not found - 404\n"

/-- The `BadRequest` middleware struct: its only field is the
`Verbose` flag; it stores no next handler. -/
structure BadRequest where
  Verbose : Bool
  deriving DecidableEq, Repr

/-- `BadRequest.SetNext` from the source: the method body is empty, so
the argument is dropped and the struct is unchanged. -/
def BadRequest.SetNext (b : BadRequest) (_next : Hdlr) : BadRequest := b

/-- The response computed by `BadRequest.ServeHTTP`: 200 with the
capability body for `OPTIONS`, else 404 with the not-found body. -/
def badRequestServe (r : Request) : Response :=
  if r.method == "OPTIONS" then ⟨200, capabilityBody⟩ else ⟨404, notFoundBody⟩

/-- `BadRequest.ServeHTTP` from the source; the response depends only
on the request (logging is a side effect outside the model and the
struct stores no next handler to call). -/
def BadRequest.ServeHTTP (_b : BadRequest) (r : Request) : Response :=
  badRequestServe r

/-! ## Router (route tables from src/server/server.go; the matching
algorithm is modelled from the spec, §4.1) -/

/-- The business-logic handlers registered in `Serve`; their bodies
are outside the verified sources, so routing theorems treat them as
opaque identities interpreted by an `exec` function. -/
inductive HandlerId where
  | getStatus
  | getTenants
  | getMetrics
  | getData
  | postData
  | postQuery
  | putTags
  | putMultiTags
  | deleteData
  | deleteTags
  deriving DecidableEq, Repr

/-- One registered route: method, path pattern and handler. -/
structure Route where
  method : String
  pattern : String
  handler : HandlerId
  deriving DecidableEq, Repr

/-- A router: a fixed URL path base (the `Prefix` field of the source
struct) and the registered routes in registration order. -/
structure Router where
  base : String
  routes : List Route
  deriving DecidableEq, Repr

/-- Split a character list into the runs between separator
characters; adjacent separators yield empty runs, mirroring
`strings.Split`. -/
def splitOnSep (sep : Char → Bool) : List Char → List (List Char)
  | [] => [[]]
  | c :: cs =>
    let r := splitOnSep sep cs
    if sep c then [] :: r
    else
      match r with
      | g :: gs => (c :: g) :: gs
      | [] => [[c]]

/-- Tokenize a path on `/`. -/
def splitPath (s : String) : List String :=
  (splitOnSep (fun c => c == '/') s.data).map String.mk

/-- Whether the character list `l` starts with the character list
`p`. -/
def strStartsWith : List Char → List Char → Bool
  | _, [] => true
  | [], _ :: _ => false
  | c :: cs, d :: ds => c == d && strStartsWith cs ds

/-- Modelled from the spec (§4.1): a pattern segment of the form
`:name` matches any single path segment; a literal segment matches
only itself. -/
def segMatchOne (pat seg : String) : Bool :=
  match pat.data with
  | ':' :: _ => true
  | _ => pat == seg

/-- Modelled from the spec (§4.1): the tokenized remaining path is
compared segment-by-segment against a tokenized pattern; lengths must
agree. -/
def segsMatch : List String → List String → Bool
  | [], [] => true
  | p :: ps, s :: ss => segMatchOne p s && segsMatch ps ss
  | _, _ => false

/-- Modelled from the spec (§4.1): the first registered route with the
right method whose pattern is structurally compatible wins
(registration order is the tie-break). -/
def findRoute (routes : List Route) (method : String) (segs : List String) :
    Option HandlerId :=
  (routes.find? fun rt =>
    rt.method == method && segsMatch (splitPath rt.pattern) segs).map Route.handler

/-- Modelled from the spec (§4.1): `Match` strips the router's fixed
path base, tokenizes the rest on `/` and searches the routes; a path
not starting with the base matches nothing. -/
def Router.Match (rt : Router) (method path : String) : Option HandlerId :=
  if strStartsWith path.data rt.base.data then
    findRoute rt.routes method
      ((splitOnSep (fun c => c == '/') (path.data.drop rt.base.data.length)).map String.mk)
  else none

/-- The root routing table registered by `Serve`. -/
def rRoot : Router :=
  { base := "/hawkular/metrics/"
    routes :=
      [ ⟨"GET", "status", .getStatus⟩
      , ⟨"GET", "tenants", .getTenants⟩
      , ⟨"GET", "metrics", .getMetrics⟩ ] }

/-- The gauges routing table registered by `Serve`, deprecated routes
included, in registration order. -/
def rGauges : Router :=
  { base := "/hawkular/metrics/gauges/"
    routes :=
      [ ⟨"GET", ":id/raw", .getData⟩
      , ⟨"GET", ":id/stats", .getData⟩
      , ⟨"POST", "raw", .postData⟩
      , ⟨"POST", "raw/query", .postQuery⟩
      , ⟨"PUT", "tags", .putMultiTags⟩
      , ⟨"PUT", ":id/tags", .putTags⟩
      , ⟨"DELETE", ":id/raw", .deleteData⟩
      , ⟨"DELETE", ":id/tags/:tags", .deleteTags⟩
      , ⟨"GET", ":id/data", .getData⟩
      , ⟨"POST", "data", .postData⟩
      , ⟨"POST", "stats/query", .postQuery⟩ ] }

/-- The counters routing table registered by `Serve`, deprecated
routes included, in registration order. -/
def rCounters : Router :=
  { base := "/hawkular/metrics/counters/"
    routes :=
      [ ⟨"GET", ":id/raw", .getData⟩
      , ⟨"GET", ":id/stats", .getData⟩
      , ⟨"POST", "raw", .postData⟩
      , ⟨"POST", "raw/query", .postQuery⟩
      , ⟨"PUT", ":id/tags", .putTags⟩
      , ⟨"GET", ":id/data", .getData⟩
      , ⟨"POST", "data", .postData⟩
      , ⟨"POST", "stats/query", .postQuery⟩ ] }

/-- The availability routing table registered by `Serve`. -/
def rAvailability : Router :=
  { base := "/hawkular/metrics/availability/"
    routes :=
      [ ⟨"GET", ":id/raw", .getData⟩
      , ⟨"GET", ":id/stats", .getData⟩ ] }

/-- The router chain of `Serve`, in the order it is assembled:
gauges, counters, availability, root. -/
def serverRouters : List Router := [rGauges, rCounters, rAvailability, rRoot]

/-- Modelled from the spec (§4.1): each router in the chain is tried
in order and the first reporting a match dispatches. -/
def matchRouters : List Router → String → String → Option HandlerId
  | [], _, _ => none
  | rt :: rest, method, path =>
    match rt.Match method path with
    | some h => some h
    | none => matchRouters rest method path

/-- Modelled from the spec (§4.2): the static-file decorator serves a
file from the media root when the request is a GET and a matching file
exists, else forwards to the next handler; `fs` abstracts the
filesystem lookup. -/
def FileServeDecorator (fs : String → Option String) (next : Hdlr) : Hdlr :=
  fun r =>
    if r.method == "GET" then
      match fs r.path with
      | some content => ⟨200, content⟩
      | none => next r
    else next r

/-- The fallback handler assembled by `Serve`: the static-file
decorator wrapping the bad-request handler. -/
def fallbackHandler (fs : String → Option String) : Hdlr :=
  FileServeDecorator fs badRequestServe

/-- Modelled from the spec (§4.1): `router.Append` concatenates the
router chain over a fallback handler; a matched handler is dispatched
through the abstract interpretation `exec`. -/
def routersAppend (fallback : Hdlr) (rs : List Router)
    (exec : HandlerId → Request → Response) : Hdlr :=
  fun r =>
    match matchRouters rs r.method r.path with
    | some h => exec h r
    | none => fallback r

/-- The composed core handler of `Serve`: the four routers in order,
falling back to the static decorator over the bad-request handler. -/
def coreHandler (fs : String → Option String)
    (exec : HandlerId → Request → Response) : Hdlr :=
  routersAppend (fallbackHandler fs) serverRouters exec

/-! ## GetStatus and server startup (src/server/server.go) -/

/-- The server version constant `VER`. -/
def VER : String := "0.22.1"

/-- The API version constant `defaultAPI`. -/
def defaultAPI : String := "0.21.0"

/-- The status body written by `GetStatus`: the JSON template with the
API version, server version and active backend name substituted,
followed by the newline `Fprintln` appends. -/
def statusBody (backendName : String) : String :=
  "\x7b\"MetricsService\":\"STARTED\",\"Implementation-Version\":\"" ++ defaultAPI ++
    "\",\"MohawkVersion\":\"" ++ VER ++ "\",\"MohawkBackend\":\"" ++ backendName ++
    "\"\x7d\n"

/-- The `GetStatus` handler: it always writes status 200 and the
status body for the active backend name. -/
def GetStatus (backendName : String) : Response :=
  ⟨200, statusBody backendName⟩

/-- The storage engines `Serve` can select. -/
inductive StorageKind where
  | sqlite
  | memory
  | mongo
  | exampleStore
  deriving DecidableEq, Repr

/-- The storage switch of `Serve`: the four supported selection
strings name a backend, anything else falls to the fatal default. -/
def selectStorage (s : String) : Option StorageKind :=
  if s = "sqlite" then some .sqlite
  else if s = "memory" then some .memory
  else if s = "mongo" then some .mongo
  else if s = "example" then some .exampleStore
  else none

/-- The numeric value of a hexadecimal digit, as `url.QueryUnescape`
accepts it. -/
def hexVal (c : Char) : Option Nat :=
  if '0' ≤ c ∧ c ≤ '9' then some (c.toNat - 48)
  else if 'a' ≤ c ∧ c ≤ 'f' then some (c.toNat - 87)
  else if 'A' ≤ c ∧ c ≤ 'F' then some (c.toNat - 55)
  else none

/-- `url.QueryUnescape` on a character list: `%XX` must carry two hex
digits (else the unescape fails), `+` decodes to a space. -/
def queryUnescape : List Char → Option (List Char)
  | [] => some []
  | '%' :: a :: b :: rest =>
    match hexVal a, hexVal b with
    | some ha, some hb => (queryUnescape rest).map (fun t => Char.ofNat (16 * ha + hb) :: t)
    | _, _ => none
  | ['%'] => none
  | ['%', _] => none
  | '+' :: rest => (queryUnescape rest).map (fun t => ' ' :: t)
  | c :: rest => (queryUnescape rest).map (fun t => c :: t)

/-- Split a `key=value` piece at the first `=`; a piece without `=`
has an empty value. -/
def splitEq : List Char → List Char × List Char
  | [] => ([], [])
  | '=' :: rest => ([], rest)
  | c :: rest =>
    let (k, v) := splitEq rest
    (c :: k, v)

/-- `url.ParseQuery`: pieces are separated by `&` or `;`, empty keys
are skipped, keys and values are query-unescaped; any unescape failure
fails the whole parse (the caller checks `err == nil`). -/
def parseQuery (s : String) : Option (List (String × String)) :=
  (splitOnSep (fun c => c == '&' || c == ';') s.data).foldr
    (fun piece acc =>
      match acc with
      | none => none
      | some l =>
        let (k, v) := splitEq piece
        if k.isEmpty then some l
        else
          match queryUnescape k, queryUnescape v with
          | some k2, some v2 => some ((String.mk k2, String.mk v2) :: l)
          | _, _ => none)
    (some [])

/-- What `Serve` does before any request is handled: a fatal exit
(`log.Fatal`, process status 1) with the logged cause, or reaching the
listening stage with the active backend's name recorded. -/
inductive StartResult where
  | fatalExit (code : Nat) (msg : String)
  | listening (backendName : String)
  deriving DecidableEq, Repr

/-- The startup phase of `Serve`: select the storage engine from the
configuration string (fatal if unknown), parse the options string as a
URL query (fatal if unparsable), then record the backend name and
proceed to listen.  `nameOf` abstracts each backend's `Name()`
method, whose body is outside the verified sources. -/
def serve (storage options : String) (nameOf : StorageKind → String) : StartResult :=
  match selectStorage storage with
  | none => .fatalExit 1 ("Can't find storage:" ++ storage)
  | some b =>
    match parseQuery options with
    | none => .fatalExit 1 ("Can't parse opetions:" ++ options)
    | some _ => .listening (nameOf b)

/-! ## Middleware pipeline (decorator list from src/server/server.go;
decorator semantics modelled from the spec, §4.2) -/

/-- A decorator wraps the next handler. -/
def Decorator : Type := Hdlr → Hdlr

/-- Modelled from the spec (§4.2): the logging decorator records the
request (a side effect outside the model) and never short-circuits. -/
def LoggingDecorator : Decorator := fun next => next

/-- Modelled from the spec (§4.2): the default-headers decorator
injects response headers (outside the model) and does not alter the
status or body. -/
def DefaultHeadersDecorator : Decorator := fun next => next

/-- The path the exemption pattern `^/hawkular/metrics/status$`
accepts: the anchored literal regular expression matches exactly this
one path. -/
def statusPath : String := "/hawkular/metrics/status"

/-- The body of the unauthorized short-circuit response.  Modelled
from the spec: only the 401 status is specified. -/
def unauthorizedBody : String := "Unauthorized"

/-- Modelled from the spec (§4.2): the authentication decorator passes
requests whose path matches the exemption pattern, passes requests
presenting the configured token, and short-circuits every other
request with 401. -/
def AuthDecorator (token : String) : Decorator :=
  fun next r =>
    if r.path = statusPath then next r
    else if r.authToken = some token then next r
    else ⟨401, unauthorizedBody⟩

/-- Modelled from the spec (§4.2): the gzip decode stage transparently
transforms the request body before forwarding; `decode` abstracts the
decompression. -/
def GzipDecodeDecorator (decode : Request → Request) : Decorator :=
  fun next r => next (decode r)

/-- Modelled from the spec (§4.2): the gzip encode stage compresses
the response body and leaves the status unchanged; `compress`
abstracts the compression. -/
def GzipEncodeDecorator (compress : String → String) : Decorator :=
  fun next r =>
    let resp := next r
    ⟨resp.status, compress resp.body⟩

/-- Modelled from the spec (§4.2): `middleware.Append` composes the
decorators outer-to-inner in the order supplied, the first being the
outermost. -/
def middlewareAppend (inner : Hdlr) (ds : List Decorator) : Hdlr :=
  ds.foldr (fun d acc => d acc) inner

/-- The decorator list assembled by `Serve`: logging and default
headers always, then authentication only when the configured token is
non-empty, then the gzip pair only when gzip is enabled. -/
def serveDecorators (token : String) (gzip : Bool) (decode : Request → Request)
    (compress : String → String) : List Decorator :=
  [LoggingDecorator, DefaultHeadersDecorator] ++
    (if token ≠ "" then [AuthDecorator token] else []) ++
    (if gzip then [GzipDecodeDecorator decode, GzipEncodeDecorator compress] else [])

/-- The full request handler `Serve` installs: the decorator list
wrapped around the core handler. -/
def serveHandler (token : String) (gzip : Bool) (decode : Request → Request)
    (compress : String → String) (core : Hdlr) : Hdlr :=
  middlewareAppend core (serveDecorators token gzip decode compress)

/-! ## In-memory storage (modelled from the spec, §3 and §4.3) -/

/-- A stored data point: millisecond timestamp and numeric value
(values enter the model only through identity, so integers stand in
for the wire encoding). -/
structure DataPoint where
  t : Nat
  v : Int
  deriving DecidableEq, Repr

/-- Modelled from the spec (§3): a metric's data points are kept in
ascending timestamp order and a duplicate timestamp overwrites the
prior value. -/
def insertPoint (p : DataPoint) : List DataPoint → List DataPoint
  | [] => [p]
  | q :: qs =>
    if p.t < q.t then p :: q :: qs
    else if p.t = q.t then p :: qs
    else q :: insertPoint p qs

/-- Modelled from the spec (§4.3): `Write` inserts each supplied data
point in order, last-write-wins per timestamp. -/
def writePoints (data : List DataPoint) (ps : List DataPoint) : List DataPoint :=
  ps.foldl (fun d q => insertPoint q d) data

/-- The storage state: data points per tenant and metric id. -/
def Storage : Type := String → String → List DataPoint

/-- The empty storage: every tenant and metric starts with no data
(tenants and metrics come into being implicitly on first write). -/
def emptyStorage : Storage := fun _ _ => []

/-- Modelled from the spec (§4.3): one `Write` call appends or
overwrites the given points of one tenant's metric. -/
def Storage.write (s : Storage) (tenant metric : String) (ps : List DataPoint) : Storage :=
  fun t m => if t = tenant ∧ m = metric then writePoints (s t m) ps else s t m

/-- A sequence of `Write` calls to one metric, applied in order. -/
def writeCalls (s : Storage) (tenant metric : String) : List (List DataPoint) → Storage
  | [] => s
  | ps :: rest => writeCalls (s.write tenant metric ps) tenant metric rest

/-- Modelled from the spec (§4.3): a raw `Query` returns the stored
data points with timestamps in `[start, stop)` in stored (ascending)
order. -/
def Storage.queryRaw (s : Storage) (tenant metric : String) (start stop : Nat) :
    List DataPoint :=
  (s tenant metric).filter (fun p => decide (start ≤ p.t) && decide (p.t < stop))

/-- The value of the last write with timestamp `T` in a flat write
sequence, if any. -/
def lastAt (T : Nat) : List DataPoint → Option Int
  | [] => none
  | p :: ws =>
    match lastAt T ws with
    | some v => some v
    | none => if p.t = T then some p.v else none

/-! ## Alert engine (modelled from the spec, §4.4) -/

/-- A rule's state. -/
inductive AlertState where
  | ok
  | firing
  deriving DecidableEq, Repr

/-- The notifications the engine can emit. -/
inductive Notif where
  | fire
  | resolve
  deriving DecidableEq, Repr

/-- The comparison operators a rule can carry. -/
inductive AlertOp where
  | gt
  | lt
  deriving DecidableEq, Repr

/-- Whether the observed value satisfies the rule's comparison against
its threshold. -/
def holdsOp : AlertOp → Int → Int → Bool
  | .gt, v, th => decide (th < v)
  | .lt, v, th => decide (v < th)

/-- Modelled from the spec (§4.4): one evaluation tick is
edge-triggered — `OK` with the comparison holding fires, `FIRING`
with the comparison failing resolves, anything else does nothing. -/
def alertStep (holds : Bool) (s : AlertState) : AlertState × Option Notif :=
  match holds, s with
  | true, .ok => (.firing, some .fire)
  | false, .firing => (.ok, some .resolve)
  | _, _ => (s, none)

/-- Run the engine over a sequence of observed values at successive
ticks, collecting the notifications in order. -/
def alertRun (op : AlertOp) (th : Int) (s : AlertState) :
    List Int → AlertState × List Notif
  | [] => (s, [])
  | v :: vs =>
    let step := alertStep (holdsOp op v th) s
    let rest := alertRun op th step.1 vs
    (rest.1, step.2.toList ++ rest.2)

/-- No two fire notifications are adjacent (with only two notification
kinds, two fires with no intervening resolve are adjacent fires). -/
def noConsecFire : List Notif → Bool
  | [] => true
  | [_] => true
  | a :: b :: ns => !(a == Notif.fire && b == Notif.fire) && noConsecFire (b :: ns)

/-- A notification list is well-formed from a state when it alternates
as the edge-triggered machine can emit it: from `OK` the next
notification can only be a fire, from `FIRING` only a resolve. -/
def wfFrom : AlertState → List Notif → Bool
  | _, [] => true
  | .ok, .fire :: ns => wfFrom .firing ns
  | .firing, .resolve :: ns => wfFrom .ok ns
  | _, _ => false

/-! ## Lemmas about the alert engine -/

theorem alertRun_wf (op : AlertOp) (th : Int) :
    ∀ (vals : List Int) (s : AlertState), wfFrom s (alertRun op th s vals).2 = true := by
  intro vals
  induction vals with
  | nil => intro s; cases s <;> rfl
  | cons v vs ih =>
    intro s
    cases hb : holdsOp op v th <;> cases s <;>
      simp [alertRun, alertStep, hb, wfFrom, Option.toList] <;> exact ih _

theorem wf_noConsecFire :
    ∀ (ns : List Notif) (s : AlertState), wfFrom s ns = true → noConsecFire ns = true := by
  intro ns
  induction ns with
  | nil => intro s _; rfl
  | cons a t ih =>
    intro s h
    cases s <;> cases a <;> simp [wfFrom] at h
    · -- from OK the head is a fire and the tail is well-formed from FIRING
      cases t with
      | nil => rfl
      | cons b t2 =>
        cases b with
        | fire => simp [wfFrom] at h
        | resolve =>
          have ht := ih .firing h
          simpa [noConsecFire] using ht
    · -- from FIRING the head is a resolve and the tail is well-formed from OK
      cases t with
      | nil => rfl
      | cons b t2 =>
        have ht := ih .ok h
        cases b <;> simpa [noConsecFire] using ht

/-! ## Lemmas about the storage write path -/

theorem mem_insertPoint (p x : DataPoint) :
    ∀ d : List DataPoint, x ∈ insertPoint p d → x = p ∨ x ∈ d := by
  intro d
  induction d with
  | nil =>
    intro hx
    simp [insertPoint] at hx
    exact .inl hx
  | cons q qs ih =>
    intro hx
    by_cases h1 : p.t < q.t
    · simp only [insertPoint, if_pos h1] at hx
      rcases List.mem_cons.mp hx with h | h
      · exact .inl h
      · exact .inr h
    · by_cases h2 : p.t = q.t
      · simp only [insertPoint, if_neg h1, if_pos h2] at hx
        rcases List.mem_cons.mp hx with h | h
        · exact .inl h
        · exact .inr (List.mem_cons_of_mem _ h)
      · simp only [insertPoint, if_neg h1, if_neg h2] at hx
        rcases List.mem_cons.mp hx with h | h
        · exact .inr (h ▸ List.mem_cons_self _ _)
        · rcases ih h with h3 | h3
          · exact .inl h3
          · exact .inr (List.mem_cons_of_mem _ h3)

theorem insertPoint_pairwise (p : DataPoint) :
    ∀ d : List DataPoint, d.Pairwise (fun a b => a.t < b.t) →
      (insertPoint p d).Pairwise (fun a b => a.t < b.t) := by
  intro d
  induction d with
  | nil => intro _; exact List.pairwise_singleton _ _
  | cons q qs ih =>
    intro h
    rw [List.pairwise_cons] at h
    obtain ⟨hq, hqs⟩ := h
    by_cases h1 : p.t < q.t
    · simp only [insertPoint, if_pos h1]
      refine List.Pairwise.cons ?_ (List.Pairwise.cons hq hqs)
      intro x hx
      rcases List.mem_cons.mp hx with rfl | hx2
      · exact h1
      · exact lt_trans h1 (hq x hx2)
    · by_cases h2 : p.t = q.t
      · simp only [insertPoint, if_neg h1, if_pos h2]
        refine List.Pairwise.cons ?_ hqs
        intro x hx
        rw [h2]
        exact hq x hx
      · have h3 : q.t < p.t := by omega
        simp only [insertPoint, if_neg h1, if_neg h2]
        refine List.Pairwise.cons ?_ (ih hqs)
        intro x hx
        rcases mem_insertPoint p x qs hx with rfl | hx2
        · exact h3
        · exact hq x hx2

theorem filter_gt_nil (T : Nat) (d : List DataPoint) (h : ∀ x ∈ d, T < x.t) :
    d.filter (fun q => q.t == T) = [] := by
  rw [List.filter_eq_nil_iff]
  intro a ha
  have := h a ha
  simp
  omega

theorem filter_insertPoint (p : DataPoint) (T : Nat) :
    ∀ d : List DataPoint, d.Pairwise (fun a b => a.t < b.t) →
      (insertPoint p d).filter (fun q => q.t == T) =
        if p.t = T then [p] else d.filter (fun q => q.t == T) := by
  intro d
  induction d with
  | nil =>
    intro _
    by_cases hT : p.t = T <;> simp [insertPoint, hT]
  | cons q qs ih =>
    intro h
    rw [List.pairwise_cons] at h
    obtain ⟨hq, hqs⟩ := h
    by_cases h1 : p.t < q.t
    · simp only [insertPoint, if_pos h1]
      by_cases hT : p.t = T
      · have hnil : (q :: qs).filter (fun x => x.t == T) = [] := by
          apply filter_gt_nil
          intro x hx
          rcases List.mem_cons.mp hx with rfl | hx2
          · omega
          · have := hq x hx2
            omega
        simp [List.filter_cons, hT, hnil]
      · simp [List.filter_cons, hT]
    · by_cases h2 : p.t = q.t
      · simp only [insertPoint, if_neg h1, if_pos h2]
        by_cases hT : p.t = T
        · have hnil : qs.filter (fun x => x.t == T) = [] := by
            apply filter_gt_nil
            intro x hx
            have := hq x hx
            omega
          simp [List.filter_cons, hT, hnil]
        · have hqT : q.t ≠ T := by omega
          simp [List.filter_cons, hT, hqT]
      · have h3 : q.t < p.t := by omega
        simp only [insertPoint, if_neg h1, if_neg h2]
        by_cases hT : p.t = T
        · have hqT : q.t ≠ T := by omega
          simp [List.filter_cons, hT, hqT, ih hqs]
        · simp [List.filter_cons, hT, ih hqs]

theorem filter_writePoints (T : Nat) :
    ∀ (ws d : List DataPoint), d.Pairwise (fun a b => a.t < b.t) →
      (writePoints d ws).filter (fun q => q.t == T) =
        (match lastAt T ws with
          | some v => [⟨T, v⟩]
          | none => d.filter (fun q => q.t == T)) := by
  intro ws
  induction ws with
  | nil =>
    intro d _
    simp [writePoints, lastAt]
  | cons p ps ih =>
    intro d hd
    have step : writePoints d (p :: ps) = writePoints (insertPoint p d) ps := rfl
    rw [step, ih _ (insertPoint_pairwise p d hd)]
    cases hl : lastAt T ps with
    | some v => simp [lastAt, hl]
    | none =>
      rw [filter_insertPoint p T d hd]
      by_cases hT : p.t = T
      · have hp : p = ⟨T, p.v⟩ := by
          cases p with
          | mk pt pv => cases hT; rfl
        simp [lastAt, hl, hT]
        exact hp
      · simp [lastAt, hl, hT]

theorem writeCalls_get (tenant metric : String) :
    ∀ (calls : List (List DataPoint)) (s : Storage),
      writeCalls s tenant metric calls tenant metric =
        writePoints (s tenant metric) calls.flatten := by
  intro calls
  induction calls with
  | nil =>
    intro s
    simp [writeCalls, writePoints, List.flatten]
  | cons ps rest ih =>
    intro s
    have step : writeCalls s tenant metric (ps :: rest) =
        writeCalls (s.write tenant metric ps) tenant metric rest := rfl
    rw [step, ih]
    have hw : Storage.write s tenant metric ps tenant metric =
        writePoints (s tenant metric) ps := by
      simp [Storage.write]
    rw [hw]
    show writePoints (writePoints (s tenant metric) ps) rest.flatten =
      writePoints (s tenant metric) (ps :: rest).flatten
    rw [List.flatten_cons]
    unfold writePoints
    rw [List.foldl_append]

/-! ## Lemmas about router path matching -/

theorem strStartsWith_append (b rest : List Char) :
    strStartsWith (b ++ rest) b = true := by
  induction b with
  | nil => cases rest <;> rfl
  | cons c cs ih => simp [strStartsWith, ih]

theorem splitOnSep_sepfree (sep : Char → Bool) :
    ∀ xs : List Char, (∀ c ∈ xs, sep c = false) → splitOnSep sep xs = [xs] := by
  intro xs
  induction xs with
  | nil => intro _; rfl
  | cons c cs ih =>
    intro h
    have hc : sep c = false := h c (List.mem_cons_self c cs)
    have hcs : ∀ x ∈ cs, sep x = false := fun x hx => h x (List.mem_cons_of_mem c hx)
    simp [splitOnSep, hc, ih hcs]

theorem splitOnSep_break (sep : Char → Bool) (d : Char) (hd : sep d = true) :
    ∀ (xs zs : List Char), (∀ c ∈ xs, sep c = false) →
      splitOnSep sep (xs ++ d :: zs) = xs :: splitOnSep sep zs := by
  intro xs
  induction xs with
  | nil => intro zs _; simp [splitOnSep, hd]
  | cons c cs ih =>
    intro zs h
    have hc : sep c = false := h c (List.mem_cons_self c cs)
    have hcs : ∀ x ∈ cs, sep x = false := fun x hx => h x (List.mem_cons_of_mem c hx)
    simp [splitOnSep, hc, ih zs hcs]

theorem Match_id_seg (rt : Router) (method id seg : String)
    (hid : ∀ c ∈ id.data, c ≠ '/') (hseg : ∀ c ∈ seg.data, c ≠ '/') :
    Router.Match rt method (rt.base ++ (id ++ ("/" ++ seg))) =
      findRoute rt.routes method [id, seg] := by
  unfold Router.Match
  have hdata : (rt.base ++ (id ++ ("/" ++ seg))).data
      = rt.base.data ++ (id.data ++ ('/' :: seg.data)) := rfl
  have hid' : ∀ c ∈ id.data, (c == '/') = false :=
    fun c hc => beq_eq_false_iff_ne.mpr (hid c hc)
  have hseg' : ∀ c ∈ seg.data, (c == '/') = false :=
    fun c hc => beq_eq_false_iff_ne.mpr (hseg c hc)
  rw [hdata, strStartsWith_append, List.drop_left,
    splitOnSep_break _ '/' rfl id.data seg.data hid',
    splitOnSep_sepfree _ seg.data hseg']
  rfl

/-! ## Claim theorems -/

/-- C1: every request reaching the terminal fallback handler gets
status 200 with the fixed capability JSON body
`{"GET":{},"PUT":{},"POST":{}}` when its method is `OPTIONS`, and
status 404 with body exactly `Page not found - 404` plus a newline for
every other method. -/
theorem C1_badRequest_fallback_response (b : BadRequest) (r : Request) :
    b.ServeHTTP r =
      if r.method == "OPTIONS" then
        ⟨200, "\x7b\"GET\":\x7b\x7d,\"PUT\":\x7b\x7d,\"POST\":\x7b\x7d\x7d"⟩
      else
        ⟨404, "Page not found - 404\n"⟩ := rfl

/-- C2: the registered route set matches the REST table of section 6:
under `/hawkular/metrics/` the root router has GET status, tenants and
metrics; gauges, counters and availability each have GET `:id/raw` and
GET `:id/stats`; gauges and counters have POST `raw` and POST
`raw/query`; only gauges has the multi-metric PUT `tags`, DELETE
`:id/raw` and DELETE `:id/tags/:tags`; availability registers no POST,
PUT or DELETE route. -/
theorem C2_route_table_matches_section6 :
    (rRoot.base = "/hawkular/metrics/" ∧
      rGauges.base = "/hawkular/metrics/gauges/" ∧
      rCounters.base = "/hawkular/metrics/counters/" ∧
      rAvailability.base = "/hawkular/metrics/availability/") ∧
    (⟨"GET", "status", .getStatus⟩ ∈ rRoot.routes ∧
      ⟨"GET", "tenants", .getTenants⟩ ∈ rRoot.routes ∧
      ⟨"GET", "metrics", .getMetrics⟩ ∈ rRoot.routes) ∧
    (∀ rt ∈ [rGauges, rCounters, rAvailability],
      ⟨"GET", ":id/raw", .getData⟩ ∈ rt.routes ∧
      ⟨"GET", ":id/stats", .getData⟩ ∈ rt.routes) ∧
    (∀ rt ∈ [rGauges, rCounters],
      ⟨"POST", "raw", .postData⟩ ∈ rt.routes ∧
      ⟨"POST", "raw/query", .postQuery⟩ ∈ rt.routes) ∧
    (⟨"PUT", "tags", .putMultiTags⟩ ∈ rGauges.routes ∧
      ⟨"DELETE", ":id/raw", .deleteData⟩ ∈ rGauges.routes ∧
      ⟨"DELETE", ":id/tags/:tags", .deleteTags⟩ ∈ rGauges.routes) ∧
    (∀ rt ∈ rCounters.routes,
      rt.method ≠ "DELETE" ∧ ¬(rt.method = "PUT" ∧ rt.pattern = "tags")) ∧
    (∀ rt ∈ rAvailability.routes, rt.method = "GET") := by decide

/-- C3: with a non-empty configured token, a request whose path is not
the exempt status path and whose token is not the configured one is
rejected with 401 before the router is reached (the response does not
depend on the core handler); a request to the status path always
passes the authentication stage (the pipeline behaves as if no token
were configured); with an empty configured token the pipeline performs
no authentication check and every request reaches the core handler. -/
theorem C3_authentication_stage (token : String) (gzip : Bool)
    (decode : Request → Request) (compress : String → String)
    (core core2 : Hdlr) (r : Request) :
    (token ≠ "" → r.path ≠ statusPath → r.authToken ≠ some token →
      serveHandler token gzip decode compress core r = ⟨401, unauthorizedBody⟩ ∧
      serveHandler token gzip decode compress core r =
        serveHandler token gzip decode compress core2 r) ∧
    (r.path = statusPath →
      serveHandler token gzip decode compress core r =
        serveHandler "" gzip decode compress core r) ∧
    (serveHandler "" gzip decode compress core r =
      if gzip then ⟨(core (decode r)).status, compress (core (decode r)).body⟩
      else core r) := by
  refine ⟨fun h1 h2 h3 => ?_, fun hp => ?_, ?_⟩
  · constructor <;>
      cases gzip <;>
        simp [serveHandler, serveDecorators, middlewareAppend, h1, h2, h3,
          LoggingDecorator, DefaultHeadersDecorator, AuthDecorator,
          GzipDecodeDecorator, GzipEncodeDecorator]
  · by_cases htok : token = ""
    · rw [htok]
    · cases gzip <;>
        simp [serveHandler, serveDecorators, middlewareAppend, hp, htok,
          LoggingDecorator, DefaultHeadersDecorator, AuthDecorator,
          GzipDecodeDecorator, GzipEncodeDecorator]
  · cases gzip <;>
      simp [serveHandler, serveDecorators, middlewareAppend,
        LoggingDecorator, DefaultHeadersDecorator, AuthDecorator,
        GzipDecodeDecorator, GzipEncodeDecorator]

/-- C4: last-write-wins: after any sequence of `Write` calls to a
metric, a raw query over a range containing timestamp `T` returns
exactly one point at `T`, and its value is the value of the last
write at `T`, whatever the order of the writes. -/
theorem C4_last_write_wins (tenant metric : String) (calls : List (List DataPoint))
    (T start stop : Nat) (v : Int)
    (hv : lastAt T calls.flatten = some v) (h1 : start ≤ T) (h2 : T < stop) :
    ((writeCalls emptyStorage tenant metric calls).queryRaw tenant metric start stop).filter
        (fun p => p.t == T) = [⟨T, v⟩] := by
  unfold Storage.queryRaw
  rw [writeCalls_get tenant metric calls emptyStorage]
  have hcomm : ∀ l : List DataPoint,
      (l.filter (fun p => decide (start ≤ p.t) && decide (p.t < stop))).filter
          (fun p => p.t == T) =
        l.filter (fun p => p.t == T) := by
    intro l
    induction l with
    | nil => rfl
    | cons a l ih =>
      by_cases hT : a.t = T
      · have hr : (decide (start ≤ a.t) && decide (a.t < stop)) = true := by
          subst hT
          simp [h1, h2]
        simp [List.filter_cons, hr, hT, ih, h1, h2]
      · by_cases hr : (decide (start ≤ a.t) && decide (a.t < stop)) = true
        · simp [List.filter_cons, hr, hT, ih]
        · have hr2 : (decide (start ≤ a.t) && decide (a.t < stop)) = false :=
            Bool.eq_false_iff.mpr hr
          simp [List.filter_cons, hr2, hT, ih]
  rw [hcomm]
  rw [filter_writePoints T calls.flatten (emptyStorage tenant metric) List.Pairwise.nil]
  simp [hv]

/-- C5: the alert engine is edge-triggered: the value sequence
`[80, 95, 85]` under threshold 90 and operator `>` yields exactly the
notification sequence fire-then-resolve (one fire after 95, one
resolve after 85), and in no run from the `OK` state do two fire
notifications occur without an intervening resolve. -/
theorem C5_alert_edge_triggered :
    alertRun .gt 90 .ok [80] = (.ok, []) ∧
    alertRun .gt 90 .ok [80, 95] = (.firing, [.fire]) ∧
    alertRun .gt 90 .ok [80, 95, 85] = (.ok, [.fire, .resolve]) ∧
    (∀ (op : AlertOp) (th : Int) (vals : List Int),
      noConsecFire (alertRun op th .ok vals).2 = true) :=
  ⟨by decide, by decide, by decide,
    fun op th vals => wf_noConsecFire _ _ (alertRun_wf op th vals .ok)⟩

/-- C6: a GET request matched by the status route invokes `GetStatus`,
which always writes status 200 and the fixed JSON body shape with
`MohawkBackend` set to the `Name()` of the storage backend selected at
startup; the startup phase records exactly that name. -/
theorem C6_status_route (storage options : String) (nameOf : StorageKind → String)
    (b : StorageKind) (q : List (String × String))
    (hb : selectStorage storage = some b) (hq : parseQuery options = some q) :
    serve storage options nameOf = .listening (nameOf b) ∧
    Router.Match rRoot "GET" "/hawkular/metrics/status" = some .getStatus ∧
    (∀ bn : String, GetStatus bn =
      ⟨200, "\x7b\"MetricsService\":\"STARTED\",\"Implementation-Version\":\"0.21.0\",\"MohawkVersion\":\"0.22.1\",\"MohawkBackend\":\"" ++ bn ++ "\"\x7d\n"⟩) := by
  refine ⟨?_, by decide, fun bn => rfl⟩
  simp [serve, hb, hq]

/-- C7: the composed core handler tries the chained routers in their
registration order — gauges, counters, availability, root — the first
router reporting a match dispatches its handler, and when no router
matches the request goes to the fallback handler, the static-file
decorator wrapping the bad-request handler. -/
theorem C7_router_chain_order (fs : String → Option String)
    (exec : HandlerId → Request → Response) (r : Request) :
    (∀ h, rGauges.Match r.method r.path = some h →
      coreHandler fs exec r = exec h r) ∧
    (rGauges.Match r.method r.path = none →
      ∀ h, rCounters.Match r.method r.path = some h →
        coreHandler fs exec r = exec h r) ∧
    (rGauges.Match r.method r.path = none →
      rCounters.Match r.method r.path = none →
      ∀ h, rAvailability.Match r.method r.path = some h →
        coreHandler fs exec r = exec h r) ∧
    (rGauges.Match r.method r.path = none →
      rCounters.Match r.method r.path = none →
      rAvailability.Match r.method r.path = none →
      ∀ h, rRoot.Match r.method r.path = some h →
        coreHandler fs exec r = exec h r) ∧
    (rGauges.Match r.method r.path = none →
      rCounters.Match r.method r.path = none →
      rAvailability.Match r.method r.path = none →
      rRoot.Match r.method r.path = none →
      coreHandler fs exec r = FileServeDecorator fs badRequestServe r) := by
  refine ⟨fun h hm => ?_, fun e1 h hm => ?_, fun e1 e2 h hm => ?_,
    fun e1 e2 e3 h hm => ?_, fun e1 e2 e3 e4 => ?_⟩ <;>
    simp [coreHandler, routersAppend, matchRouters, serverRouters,
      fallbackHandler, *]

/-- C8: a storage selection string outside the supported set — sqlite,
memory, mongo, example — or an options string that fails to parse as a
URL query makes startup terminate fatally with exit status 1 after
logging the cause, and the server never reaches the listening stage. -/
theorem C8_startup_errors (storage options : String) (nameOf : StorageKind → String) :
    (storage ∉ ["sqlite", "memory", "mongo", "example"] →
      serve storage options nameOf = .fatalExit 1 ("Can't find storage:" ++ storage) ∧
      ∀ bn, serve storage options nameOf ≠ .listening bn) ∧
    (parseQuery options = none →
      ∀ b, selectStorage storage = some b →
        serve storage options nameOf = .fatalExit 1 ("Can't parse opetions:" ++ options) ∧
        ∀ bn, serve storage options nameOf ≠ .listening bn) := by
  constructor
  · intro h
    simp only [List.mem_cons, List.mem_singleton, not_or] at h
    obtain ⟨h1, h2, h3, h4⟩ := h
    have hsel : selectStorage storage = none := by
      simp [selectStorage, h1, h2, h3, h4]
    constructor
    · simp [serve, hsel]
    · intro bn
      simp [serve, hsel]
  · intro hq b hb
    constructor
    · simp [serve, hb, hq]
    · intro bn
      simp [serve, hb, hq]

/-- C9: beyond the section 6 table, the gauges and counters routers
also serve the deprecated routes — GET `:id/data` with the same
handler as `:id/raw`, POST `data` with the same handler as `raw`, and
POST `stats/query` with the same handler as `raw/query` — so the
legacy paths dispatch identically to their modern counterparts instead
of falling through to the 404 fallback. -/
theorem C9_deprecated_routes (id : String) (hid : ∀ c ∈ id.data, c ≠ '/') :
    (Router.Match rGauges "GET" ("/hawkular/metrics/gauges/" ++ (id ++ "/data")) =
        some .getData ∧
      Router.Match rGauges "GET" ("/hawkular/metrics/gauges/" ++ (id ++ "/raw")) =
        some .getData) ∧
    (Router.Match rCounters "GET" ("/hawkular/metrics/counters/" ++ (id ++ "/data")) =
        some .getData ∧
      Router.Match rCounters "GET" ("/hawkular/metrics/counters/" ++ (id ++ "/raw")) =
        some .getData) ∧
    (Router.Match rGauges "POST" "/hawkular/metrics/gauges/data" = some .postData ∧
      Router.Match rGauges "POST" "/hawkular/metrics/gauges/raw" = some .postData ∧
      Router.Match rGauges "POST" "/hawkular/metrics/gauges/stats/query" = some .postQuery ∧
      Router.Match rGauges "POST" "/hawkular/metrics/gauges/raw/query" = some .postQuery) ∧
    (Router.Match rCounters "POST" "/hawkular/metrics/counters/data" = some .postData ∧
      Router.Match rCounters "POST" "/hawkular/metrics/counters/raw" = some .postData ∧
      Router.Match rCounters "POST" "/hawkular/metrics/counters/stats/query" =
        some .postQuery ∧
      Router.Match rCounters "POST" "/hawkular/metrics/counters/raw/query" =
        some .postQuery) := by
  have hdata : ∀ c ∈ ("data" : String).data, c ≠ '/' := by decide
  have hraw : ∀ c ∈ ("raw" : String).data, c ≠ '/' := by decide
  refine ⟨⟨?_, ?_⟩, ⟨?_, ?_⟩, by decide, by decide⟩
  · exact (Match_id_seg rGauges "GET" id "data" hid hdata).trans rfl
  · exact (Match_id_seg rGauges "GET" id "raw" hid hraw).trans rfl
  · exact (Match_id_seg rCounters "GET" id "data" hid hdata).trans rfl
  · exact (Match_id_seg rCounters "GET" id "raw" hid hraw).trans rfl

/-- C10: the bad-request fallback handler is terminal: `SetNext`
ignores its argument and changes no state, and the response `ServeHTTP`
computes is the same for any two configurations of a successor
handler (no next handler is ever invoked). -/
theorem C10_badRequest_terminal (b : BadRequest) (h1 h2 : Hdlr) (r : Request) :
    b.SetNext h1 = b ∧
    (b.SetNext h1).ServeHTTP r = (b.SetNext h2).ServeHTTP r ∧
    (∀ b2 : BadRequest, b.ServeHTTP r = b2.ServeHTTP r) :=
  ⟨rfl, rfl, fun _ => rfl⟩

/-! ## Witnesses: each hypothesis-bearing claim theorem applied at a
concrete input -/

/-- Witness for C3: a non-status request without the configured token
is rejected with 401; a status request behaves as with no token
configured. -/
theorem C3_authentication_stage_witness :
    serveHandler "secret" false id id (fun _ => ⟨200, "ok"⟩) ⟨"GET", "/foo", none⟩ =
      ⟨401, unauthorizedBody⟩ ∧
    serveHandler "secret" false id id (fun _ => ⟨200, "ok"⟩)
        ⟨"GET", "/hawkular/metrics/status", none⟩ =
      serveHandler "" false id id (fun _ => ⟨200, "ok"⟩)
        ⟨"GET", "/hawkular/metrics/status", none⟩ := by
  constructor
  · exact ((C3_authentication_stage "secret" false id id (fun _ => ⟨200, "ok"⟩)
      (fun _ => ⟨200, "no"⟩) ⟨"GET", "/foo", none⟩).1
        (by decide) (by decide) (by decide)).1
  · exact (C3_authentication_stage "secret" false id id (fun _ => ⟨200, "ok"⟩)
      (fun _ => ⟨200, "no"⟩) ⟨"GET", "/hawkular/metrics/status", none⟩).2.1 rfl

/-- Witness for C4: two writes at timestamp 1 across two `Write`
calls; the raw query over `[0, 3)` returns the later value 20 at
timestamp 1. -/
theorem C4_last_write_wins_witness :
    ((writeCalls emptyStorage "t" "m" [[⟨1, 10⟩], [⟨1, 20⟩, ⟨2, 5⟩]]).queryRaw
        "t" "m" 0 3).filter (fun p => p.t == 1) = [⟨1, 20⟩] :=
  C4_last_write_wins "t" "m" [[⟨1, 10⟩], [⟨1, 20⟩, ⟨2, 5⟩]] 1 0 3 20
    (by decide) (by decide) (by decide)

/-- Witness for C6: selecting the memory backend with an empty options
string reaches the listening stage with that backend's name. -/
theorem C6_status_route_witness :
    serve "memory" "" (fun _ => "Memory") = .listening "Memory" ∧
    Router.Match rRoot "GET" "/hawkular/metrics/status" = some .getStatus ∧
    (∀ bn : String, GetStatus bn =
      ⟨200, "\x7b\"MetricsService\":\"STARTED\",\"Implementation-Version\":\"0.21.0\",\"MohawkVersion\":\"0.22.1\",\"MohawkBackend\":\"" ++ bn ++ "\"\x7d\n"⟩) :=
  C6_status_route "memory" "" (fun _ => "Memory") .memory [] (by decide) (by decide)

/-- Witness for C7: a counters request misses the gauges router and is
dispatched by the counters router. -/
theorem C7_router_chain_order_witness :
    coreHandler (fun _ => none) (fun _ _ => ⟨200, "ok"⟩)
      ⟨"GET", "/hawkular/metrics/counters/cpu/raw", none⟩ = ⟨200, "ok"⟩ :=
  (C7_router_chain_order (fun _ => none) (fun _ _ => ⟨200, "ok"⟩)
    ⟨"GET", "/hawkular/metrics/counters/cpu/raw", none⟩).2.1
      (by decide) .getData (by decide)

/-- Witness for C8: an unsupported storage selection string exits
fatally with status 1. -/
theorem C8_startup_errors_witness :
    serve "riak" "a=%zz" (fun _ => "X") =
      .fatalExit 1 ("Can't find storage:" ++ "riak") :=
  ((C8_startup_errors "riak" "a=%zz" (fun _ => "X")).1 (by decide)).1

/-- Witness for C9: with metric id `cpu`, the deprecated gauge data
path dispatches to the same handler as the raw path. -/
theorem C9_deprecated_routes_witness :
    Router.Match rGauges "GET" ("/hawkular/metrics/gauges/" ++ ("cpu" ++ "/data")) =
        some .getData ∧
    Router.Match rGauges "GET" ("/hawkular/metrics/gauges/" ++ ("cpu" ++ "/raw")) =
        some .getData :=
  (C9_deprecated_routes "cpu" (by decide)).1

end Mohawk
